import Mathlib

/-
Verification development for the go-cross-compile batch build tool.

The tool (package main: main.go, build.go, config.go, errors.go) cross-compiles
a configured list of artifacts, then optionally emits per-artifact checksum
files (md5/sha1/sha256/sha512) and zip archives.  The development below is a
shallow embedding of the repository's code: the filesystem is an explicit
association list from paths to file data, the external `go build` process is an
oracle parameter, and the four hash algorithms are abstract digest functions
(the stdlib hash implementations are external collaborators; only their use as
pure byte-digest functions matters here).
-/

set_option maxHeartbeats 1000000

namespace GoCrossCompile

/-! ### Hex encoding

Models Go's `fmt.Sprintf("%x", sum)` applied to a byte slice: each byte is
rendered as two lowercase hexadecimal digits. -/

/-- The sixteen lowercase hexadecimal digit characters. -/
def hexDigits : List Char := "0123456789abcdef".data

/-- The lowercase hex digit for a nibble value. -/
def hexDigitChar (n : Nat) : Char := hexDigits.getD n '0'

/-- Two lowercase hex digits for one byte, high nibble first. -/
def byteHex (b : Nat) : List Char := [hexDigitChar (b / 16 % 16), hexDigitChar (b % 16)]

/-- Lowercase hex rendering of a byte sequence, as a character list. -/
def hexChars : List Nat → List Char
  | [] => []
  | b :: bs => byteHex b ++ hexChars bs

/-! ### Filesystem model

File contents are byte-strings (Go strings are byte sequences).  A zip archive
is kept structurally as its entry list; `openFail` models a file that exists
but cannot be opened (`os.Open` errors), `readFail` one that opens but whose
contents cannot be read (`io.Copy` errors). -/

/-- One entry of a zip archive: entry name, compression method, the unix
permission bits recorded in the entry header, and the entry's bytes.
`archive/zip`'s `Writer.Create` uses the deflate method and never calls
`FileHeader.SetMode`, so entries it creates carry permission bits 0. -/
structure ZipEntry where
  name : String
  method : Nat
  mode : Nat
  data : String
deriving DecidableEq

/-- `zip.Deflate`, the standard deflate compression method id. -/
def zipDeflate : Nat := 8

/-- Contents of one file in the modelled filesystem. -/
inductive FileData where
  | bytes (content : String)
  | openFail
  | readFail
  | zipArchive (entries : List ZipEntry)
deriving DecidableEq

/-- Stand-in for the raw byte serialization of a zip archive (only used so
that an archive file is itself a readable byte file; no claim depends on the
actual zip byte format). -/
def zipEncode : List ZipEntry → String
  | [] => ""
  | e :: es => e.name ++ e.data ++ zipEncode es

/-- Reading a file's raw bytes: `openFail`/`readFail` files yield nothing. -/
def FileData.readBytes : FileData → Option String
  | .bytes c => some c
  | .openFail => none
  | .readFail => none
  | .zipArchive es => some (zipEncode es)

/-- The filesystem: an association list of files (later writes shadow earlier
ones) plus the set of existing directories. -/
structure FS where
  files : List (String × FileData)
  dirs : List String
deriving DecidableEq

/-- Look up a file's contents. -/
def FS.read (fs : FS) (p : String) : Option FileData :=
  (fs.files.find? (fun kv => kv.1 == p)).map Prod.snd

/-- Create or overwrite the file at `p`. -/
def FS.write (fs : FS) (p : String) (d : FileData) : FS :=
  { fs with files := (p, d) :: fs.files }

/-! ### Data model (build.go, config.go)

`Name`, `OS`, `ARCH` are the `Artifact` fields of src/build.go.  `CGOEnabled`
and `Flags` are the two further fields that config.go's `Config.AddBuild`
initializes (`CGOEnabled: cgo, Flags: flags`); the revision of build.go
declaring them is not under src/, so they are modelled from the spec and the
repository README (`cgoEnabled`, `flags` keys of the artifact config records).
-/

/-- A build target (`Artifact` of build.go / config.go). -/
structure Artifact where
  Name : String
  OS : String
  ARCH : String
  CGOEnabled : Bool
  Flags : List String
deriving DecidableEq

/-- The run configuration (`Config` of config.go). -/
structure Config where
  OutDir : String
  SrcDir : String
  MD5 : Bool
  SHA1 : Bool
  SHA256 : Bool
  SHA512 : Bool
  ZipFile : Bool
  Artifacts : List Artifact
deriving DecidableEq

/-- `NewConfig` of config.go: the default configuration. -/
def NewConfig : Config :=
  { OutDir := "build", SrcDir := ".", MD5 := false, SHA1 := true, SHA256 := false
    SHA512 := false, ZipFile := false, Artifacts := [] }

/-- `Config.AddBuild` of config.go: append one build target
(the Go variadic `flags ...string` parameter becomes a list). -/
def Config.AddBuild (c : Config) (name os arch : String) (cgo : Bool) (flags : List String) :
    Config :=
  { c with Artifacts := c.Artifacts ++ [⟨name, os, arch, cgo, flags⟩] }

/-! ### Error codes (errors.go) -/

def NoError : Nat := 0
def ErrorUnknown : Nat := 1
def ErrorConfigFileNotFound : Nat := 2
def ErrorReadConfig : Nat := 3
def ErrorSrcDirNotFound : Nat := 4
def ErrorOutDirNotFound : Nat := 5
def ErrorInitConfig : Nat := 6
def ErrorOpenArtifact : Nat := 7
def ErrorGoBuild : Nat := 8
def ErrorMD5SumFile : Nat := 9
def ErrorSHA1SumFile : Nat := 10
def ErrorSHA256SumFile : Nat := 11
def ErrorSHA512SumFile : Nat := 12
def ErrorZipFile : Nat := 13

/-! ### Paths

`work` builds the artifact path as `fmt.Sprintf("%s/%s", outDir, name)` and
`Artifact.Build` as `path.Join(outDir, name)`; for the clean relative paths the
tool deals in, both are plain concatenation with a slash.  The checksum file is
`fmt.Sprintf("%s/%s.%s.txt", outDir, name, mode)` and the archive
`fmt.Sprintf("%s/%s.zip", outDir, name)`. -/

def artifactPath (outDir name : String) : String := outDir ++ "/" ++ name

/-- The four checksum algorithms selectable in the config. -/
inductive Algo where
  | md5
  | sha1
  | sha256
  | sha512
deriving DecidableEq

/-- The filename infix (`"md5"`, ...) used for an algorithm's sum file. -/
def Algo.ext : Algo → String
  | .md5 => "md5"
  | .sha1 => "sha1"
  | .sha256 => "sha256"
  | .sha512 => "sha512"

def sumFileName (outDir name : String) (algo : Algo) : String :=
  artifactPath outDir name ++ ("." ++ (algo.ext ++ ".txt"))

def zipFileName (outDir name : String) : String := artifactPath outDir name ++ ".zip"

/-! ### Checksum emitter (`Artifact.CreateSumFile`, build.go) -/

/-- The single checksum record line `fmt.Sprintf("%x %s\n", sum, b.Name)`:
lowercase-hex digest, one space, the artifact's declared name, newline. -/
def sumRecord (h : String → List Nat) (name data : String) : String :=
  String.mk (hexChars (h data) ++ ' ' :: (name.data ++ ['\n']))

/-- `Artifact.CreateSumFile` of build.go: open the artifact, hash its
contents, and only then write the one-line record to `filename` (written with
`os.WriteFile`, which creates or truncates).  On open or read failure the
error is returned and nothing is written.  Returns the filesystem after the
call together with the error, if any. -/
def Artifact.CreateSumFile (b : Artifact) (h : String → List Nat)
    (artifact filename : String) (fs : FS) : FS × Option String :=
  match fs.read artifact with
  | none => (fs, some ("error opening artifact " ++ artifact))
  | some FileData.openFail => (fs, some ("error opening artifact " ++ artifact))
  | some FileData.readFail => (fs, some ("error hashing file " ++ artifact))
  | some (FileData.bytes data) =>
      (fs.write filename (FileData.bytes (sumRecord h b.Name data)), none)
  | some (FileData.zipArchive es) =>
      (fs.write filename (FileData.bytes (sumRecord h b.Name (zipEncode es))), none)

/-! ### Archive emitter (`Artifact.CreatZipFile`, build.go)

The destination is created (truncating any existing file) by `os.Create`
before the artifact is opened; the deferred `zipWriter.Close` writes the
archive structure even on the error paths, so a failed call still leaves a
fresh archive at the destination.  The single entry is created with
`zipWriter.Create(filepath.Base(artifact))`, i.e. deflate method and no
permission bits, and receives the artifact's bytes. -/

/-- Strip trailing separators, as `path/filepath.Base` does. -/
def dropTrailingSep (l : List Char) : List Char :=
  (l.reverse.dropWhile (fun c => c == '/')).reverse

/-- The component after the last separator. -/
def lastComponent (l : List Char) : List Char :=
  (l.reverse.takeWhile (fun c => !(c == '/'))).reverse

/-- `filepath.Base` for slash-separated paths. -/
def baseName (p : String) : String :=
  if p.data.isEmpty then "."
  else
    let t := dropTrailingSep p.data
    if t.isEmpty then "/"
    else String.mk (lastComponent t)

/-- `Artifact.CreatZipFile` of build.go (the receiver is unused by the
source function as well). -/
def Artifact.CreatZipFile (_b : Artifact) (artifact filename : String) (fs : FS) :
    FS × Option String :=
  let fs1 := fs.write filename (FileData.zipArchive [])
  match fs1.read artifact with
  | none => (fs1, some ("error opening artifact " ++ artifact))
  | some FileData.openFail => (fs1, some ("error opening artifact " ++ artifact))
  | some FileData.readFail =>
      (fs1.write filename (FileData.zipArchive [⟨baseName artifact, zipDeflate, 0, ""⟩]),
       some ("error copying artifact to zip " ++ artifact))
  | some (FileData.bytes data) =>
      (fs1.write filename (FileData.zipArchive [⟨baseName artifact, zipDeflate, 0, data⟩]), none)
  | some (FileData.zipArchive es) =>
      (fs1.write filename
        (FileData.zipArchive [⟨baseName artifact, zipDeflate, 0, zipEncode es⟩]), none)

/-! ### Compiler invocation (`Artifact.Build`)

Modelled from the spec: the revision of `Artifact.Build` that consumes the
`CGOEnabled` and `Flags` fields is not under src/ (src/build.go is an earlier
revision of the file whose `Artifact` lacks those fields, while config.go's
`AddBuild` initializes them).  Per the spec and README: the external toolchain
is invoked with environment variables selecting target OS and architecture,
plus the native-interop (`CGO_ENABLED`) toggle, plus the artifact's extra
flags appended to the standard `go build -o <target>` invocation, run in the
source directory, producing the executable at `outputDir/name`. -/

/-- The description of one external-compiler invocation. -/
structure BuildInvocation where
  args : List String
  envGOOS : String
  envGOARCH : String
  envCGO : String
  dir : String
  target : String
deriving DecidableEq

/-- Modelled from the spec: the invocation `Artifact.Build` issues. -/
def Artifact.buildInvocation (a : Artifact) (srcDir outDir : String) : BuildInvocation :=
  { args := ["build", "-o", artifactPath outDir a.Name] ++ a.Flags
    envGOOS := "GOOS=" ++ a.OS
    envGOARCH := "GOARCH=" ++ a.ARCH
    envCGO := "CGO_ENABLED=" ++ (if a.CGOEnabled then "1" else "0")
    dir := srcDir
    target := artifactPath outDir a.Name }

/-! ### Pipeline driver (`work`, main.go)

The external `go build` run is an oracle `B`: `B a = some out` means the
compiler succeeded and wrote the bytes `out` at the target path, `none` means
it exited nonzero (leaving nothing trusted at the target).  The digest
functions are an oracle `H`.  A trace of the steps attempted is returned
alongside the filesystem and the result. -/

/-- The pipeline steps of one artifact, in the order `work` runs them. -/
inductive Step where
  | build
  | md5
  | sha1
  | sha256
  | sha512
  | zip
deriving DecidableEq

/-- The step of a checksum algorithm. -/
def Algo.step : Algo → Step
  | .md5 => .md5
  | .sha1 => .sha1
  | .sha256 => .sha256
  | .sha512 => .sha512

/-- The exit code `work` returns when an algorithm's sum-file step fails. -/
def Algo.errCode : Algo → Nat
  | .md5 => ErrorMD5SumFile
  | .sha1 => ErrorSHA1SumFile
  | .sha256 => ErrorSHA256SumFile
  | .sha512 => ErrorSHA512SumFile

/-- The config flag guarding an algorithm's step. -/
def Config.flag (c : Config) : Algo → Bool
  | .md5 => c.MD5
  | .sha1 => c.SHA1
  | .sha256 => c.SHA256
  | .sha512 => c.SHA512

/-- The exit code `work` returns when a step fails. -/
def stepErr : Step → Nat
  | .build => ErrorGoBuild
  | .md5 => ErrorMD5SumFile
  | .sha1 => ErrorSHA1SumFile
  | .sha256 => ErrorSHA256SumFile
  | .sha512 => ErrorSHA512SumFile
  | .zip => ErrorZipFile

/-- The order in which `work` considers the checksum algorithms. -/
def allAlgos : List Algo := [.md5, .sha1, .sha256, .sha512]

/-- The four guarded checksum blocks of `work`, in source order: each enabled
algorithm hashes the built artifact into its sum file; the first failure
returns that algorithm's exit code. -/
def runSums (H : Algo → String → List Nat) (cfg : Config) (a : Artifact) :
    List Algo → FS → FS × List Step × Option Nat
  | [], fs => (fs, [], none)
  | algo :: rest, fs =>
    if cfg.flag algo then
      match a.CreateSumFile (H algo) (artifactPath cfg.OutDir a.Name)
          (sumFileName cfg.OutDir a.Name algo) fs with
      | (fs', some _) => (fs', [algo.step], some algo.errCode)
      | (fs', none) =>
        match runSums H cfg a rest fs' with
        | (fs'', tr, r) => (fs'', algo.step :: tr, r)
    else runSums H cfg a rest fs

/-- One iteration of `work`'s artifact loop: build, then the enabled checksum
steps, then the zip step if enabled; the first failure aborts the iteration
with its step's exit code. -/
def processArtifact (H : Algo → String → List Nat) (B : Artifact → Option String)
    (cfg : Config) (a : Artifact) (fs : FS) : FS × List Step × Option Nat :=
  match B a with
  | none => (fs, [Step.build], some ErrorGoBuild)
  | some out =>
    let fsb := fs.write (artifactPath cfg.OutDir a.Name) (FileData.bytes out)
    match runSums H cfg a allAlgos fsb with
    | (fs1, tr, some c) => (fs1, Step.build :: tr, some c)
    | (fs1, tr, none) =>
      if cfg.ZipFile then
        match a.CreatZipFile (artifactPath cfg.OutDir a.Name)
            (zipFileName cfg.OutDir a.Name) fs1 with
        | (fs2, some _) => (fs2, (Step.build :: tr) ++ [Step.zip], some ErrorZipFile)
        | (fs2, none) => (fs2, (Step.build :: tr) ++ [Step.zip], none)
      else (fs1, Step.build :: tr, none)

/-- `work`'s artifact loop: artifacts strictly in declared order, stopping at
the first failing artifact. -/
def workLoop (H : Algo → String → List Nat) (B : Artifact → Option String) (cfg : Config) :
    List Artifact → FS → FS × List Step × Option Nat
  | [], fs => (fs, [], none)
  | a :: rest, fs =>
    match processArtifact H B cfg a fs with
    | (fs', tr, some c) => (fs', tr, some c)
    | (fs', tr, none) =>
      match workLoop H B cfg rest fs' with
      | (fs'', tr', r) => (fs'', tr ++ tr', r)

/-- The two ways `Config.Load` can fail: `os.ReadFile` errors (no such file)
or `json.Unmarshal` errors (unparsable contents).  main.go inspects only
whether an error occurred, not which. -/
inductive LoadError where
  | fileNotFound
  | parseError
deriving DecidableEq

/-- `work` of main.go. `version`, `initConfig` and `skipBuild` are the command
line flags; `saveOk` is the outcome of `Config.Save` on the init-config path
(JSON marshalling plus `os.WriteFile` of the config file, which lives outside
the modelled output filesystem); `load` is the outcome of `Config.Load`.
`Config.RunChecks` only logs warnings and is omitted.  Returns the final
filesystem, the trace of attempted steps, and the process exit status. -/
def work (version initConfig skipBuild saveOk : Bool) (load : Except LoadError Config)
    (H : Algo → String → List Nat) (B : Artifact → Option String) (fs : FS) :
    FS × List Step × Nat :=
  if version then (fs, [], NoError)
  else if initConfig then
    if saveOk then (fs, [], NoError) else (fs, [], ErrorInitConfig)
  else
    match load with
    | Except.error _ => (fs, [], ErrorConfigFileNotFound)
    | Except.ok cfg =>
      if !(fs.dirs.contains cfg.SrcDir) then (fs, [], ErrorSrcDirNotFound)
      else if !(fs.dirs.contains cfg.OutDir) then (fs, [], ErrorOutDirNotFound)
      else if skipBuild then (fs, [], NoError)
      else
        match workLoop H B cfg cfg.Artifacts fs with
        | (fs', tr, some c) => (fs', tr, c)
        | (fs', tr, none) => (fs', tr, NoError)

/-! ### Basic filesystem and string lemmas -/

theorem FS.read_write_self (fs : FS) (p : String) (d : FileData) :
    (fs.write p d).read p = some d := by
  simp [FS.read, FS.write]

theorem FS.read_write_ne (fs : FS) {p q : String} (d : FileData) (h : q ≠ p) :
    (fs.write p d).read q = fs.read q := by
  have hpq : (p == q) = false := by
    simp only [beq_eq_false_iff_ne]
    exact fun e => h e.symm
  simp [FS.read, FS.write, List.find?_cons, hpq]

theorem FS.read_write_none {fs : FS} {p q : String} {d : FileData}
    (h : (fs.write p d).read q = none) : fs.read q = none := by
  by_cases hq : q = p
  · subst hq; rw [FS.read_write_self] at h; cases h
  · rwa [FS.read_write_ne _ _ hq] at h

theorem str_data_append (s t : String) : (s ++ t).data = s.data ++ t.data := by
  cases s; cases t; rfl

theorem str_ext {s t : String} (h : s.data = t.data) : s = t := by
  cases s; cases t; exact congrArg String.mk h

theorem str_append_right_ne (x : String) {s t : String} (h : s ≠ t) : x ++ s ≠ x ++ t := by
  intro e
  apply h
  apply str_ext
  have h2 := congrArg String.data e
  rw [str_data_append, str_data_append] at h2
  exact List.append_cancel_left h2

theorem str_ne_append_right (x : String) {t : String} (h : t.data ≠ []) : x ≠ x ++ t := by
  intro e
  have h2 := congrArg (fun s => s.data.length) e
  simp only [str_data_append, List.length_append] at h2
  have : 0 < t.data.length := List.length_pos.mpr h
  omega

/-! ### Hex lemmas -/

theorem hexDigitChar_mem (n : Nat) : hexDigitChar n ∈ hexDigits := by
  unfold hexDigitChar
  rcases Nat.lt_or_ge n hexDigits.length with h | h
  · rw [List.getD_eq_getElem _ _ h]
    exact List.getElem_mem _
  · rw [List.getD_eq_default _ _ h]
    decide

theorem mem_hexChars {c : Char} : ∀ {bs : List Nat}, c ∈ hexChars bs → c ∈ hexDigits := by
  intro bs
  induction bs with
  | nil => intro h; cases h
  | cons b bs ih =>
    intro h
    rw [hexChars] at h
    rcases List.mem_append.mp h with h | h
    · rcases List.mem_cons.mp h with he | h
      · rw [he]; exact hexDigitChar_mem _
      · rcases List.mem_cons.mp h with he | h
        · rw [he]; exact hexDigitChar_mem _
        · cases h
    · exact ih h

theorem newline_not_mem_hexChars (bs : List Nat) : '\n' ∉ hexChars bs := by
  intro h
  have := mem_hexChars h
  revert this
  decide

/-! ### Checksum record lemmas -/

theorem sumRecord_count_newline (h : String → List Nat) (name data : String)
    (hn : '\n' ∉ name.data) :
    (sumRecord h name data).data.count '\n' = 1 := by
  have h1 : (hexChars (h data)).count '\n' = 0 :=
    List.count_eq_zero.mpr (newline_not_mem_hexChars _)
  have h2 : name.data.count '\n' = 0 := List.count_eq_zero.mpr hn
  simp [sumRecord, List.count_append, List.count_cons, h1, h2]

theorem sumRecord_getLast (h : String → List Nat) (name data : String) :
    (sumRecord h name data).data.getLast? = some '\n' := by
  have hshape : (sumRecord h name data).data =
      (hexChars (h data) ++ ' ' :: name.data) ++ ['\n'] := by
    simp [sumRecord]
  rw [hshape, List.getLast?_concat]

theorem CreateSumFile_bytes {b : Artifact} {h : String → List Nat}
    {artifact filename : String} {fs : FS} {data : String}
    (hr : fs.read artifact = some (FileData.bytes data)) :
    b.CreateSumFile h artifact filename fs =
      (fs.write filename (FileData.bytes (sumRecord h b.Name data)), none) := by
  simp [Artifact.CreateSumFile, hr]

/-! ### Base-name lemmas -/

theorem takeWhile_append_all {p : Char → Bool} :
    ∀ (l : List Char), (∀ x ∈ l, p x = true) → ∀ (y : Char) (ys : List Char), p y = false →
      (l ++ y :: ys).takeWhile p = l := by
  intro l
  induction l with
  | nil =>
    intro _ y ys hy
    simp [List.takeWhile_cons, hy]
  | cons a l ih =>
    intro hall y ys hy
    have ha : p a = true := hall a (List.mem_cons_self _ _)
    simp only [List.cons_append, List.takeWhile_cons, ha]
    rw [ih (fun x hx => hall x (List.mem_cons_of_mem _ hx)) y ys hy]
    simp

theorem dropWhile_cons_all_neg (p : Char → Bool) (a : Char) (l : List Char)
    (ha : p a = false) : (a :: l).dropWhile p = a :: l := by
  simp [List.dropWhile_cons, ha]

theorem baseName_append (d n : String) (h1 : '/' ∉ n.data) (h2 : n.data ≠ []) :
    baseName (d ++ "/" ++ n) = n := by
  have hpath : (d ++ "/" ++ n).data = d.data ++ '/' :: n.data := by
    rw [str_data_append, str_data_append, List.append_assoc]
    rfl
  obtain ⟨c, cs, hrev⟩ : ∃ c cs, n.data.reverse = c :: cs := by
    cases hr : n.data.reverse with
    | nil => exact absurd (List.reverse_eq_nil_iff.mp hr) h2
    | cons c cs => exact ⟨c, cs, rfl⟩
  have hc : c ∈ n.data := by
    have : c ∈ n.data.reverse := by rw [hrev]; exact List.mem_cons_self _ _
    exact List.mem_reverse.mp this
  have hcne : (c == '/') = false := by
    simp only [beq_eq_false_iff_ne]
    intro e
    exact h1 (e ▸ hc)
  have hrevpath : (d.data ++ '/' :: n.data).reverse = n.data.reverse ++ '/' :: d.data.reverse := by
    rw [List.reverse_append, List.reverse_cons, List.append_assoc]
    rfl
  have hdrop : dropTrailingSep (d.data ++ '/' :: n.data) = d.data ++ '/' :: n.data := by
    unfold dropTrailingSep
    rw [hrevpath, hrev, List.cons_append]
    rw [dropWhile_cons_all_neg (fun ch => ch == '/') c (cs ++ '/' :: d.data.reverse) hcne]
    have hre : c :: (cs ++ '/' :: d.data.reverse) = (d.data ++ '/' :: n.data).reverse := by
      rw [hrevpath, hrev]
      rfl
    rw [hre, List.reverse_reverse]
  have hlast : lastComponent (d.data ++ '/' :: n.data) = n.data := by
    unfold lastComponent
    rw [hrevpath]
    have hall : ∀ x ∈ n.data.reverse, (fun ch => !(ch == '/')) x = true := by
      intro x hx
      have hxm : x ∈ n.data := List.mem_reverse.mp hx
      have hxne : (x == '/') = false := by
        simp only [beq_eq_false_iff_ne]
        intro e
        exact h1 (e ▸ hxm)
      simp [hxne]
    rw [takeWhile_append_all _ hall '/' _ (by decide), List.reverse_reverse]
  unfold baseName
  rw [hpath]
  have hne : (d.data ++ '/' :: n.data).isEmpty = false := by
    cases d.data <;> rfl
  rw [if_neg (by rw [hne]; intro h; cases h), hdrop]
  rw [if_neg (by rw [hne]; intro h; cases h), hlast]

/-! ### Path distinctness lemmas -/

theorem sumFileName_ne_artifactPath (outDir name : String) (algo : Algo) :
    sumFileName outDir name algo ≠ artifactPath outDir name := by
  have : artifactPath outDir name ≠ sumFileName outDir name algo := by
    unfold sumFileName
    apply str_ne_append_right
    cases algo <;> decide
  exact fun e => this e.symm

theorem zipFileName_ne_artifactPath (outDir name : String) :
    zipFileName outDir name ≠ artifactPath outDir name := by
  have : artifactPath outDir name ≠ zipFileName outDir name := by
    unfold zipFileName
    apply str_ne_append_right
    decide
  exact fun e => this e.symm

theorem sumFileName_ne_zipFileName (outDir name : String) (algo : Algo) :
    sumFileName outDir name algo ≠ zipFileName outDir name := by
  unfold sumFileName zipFileName
  apply str_append_right_ne
  cases algo <;> decide

theorem sumFileName_injOn_algo (outDir name : String) {a₁ a₂ : Algo} (h : a₁ ≠ a₂) :
    sumFileName outDir name a₁ ≠ sumFileName outDir name a₂ := by
  unfold sumFileName
  apply str_append_right_ne
  cases a₁ <;> cases a₂ <;> first | exact absurd rfl h | decide

/-! ### Traces expected from a configuration -/

/-- The checksum steps a configuration enables, in `work`'s order. -/
def Config.sumTrace (c : Config) (algos : List Algo) : List Step :=
  (algos.filter c.flag).map Algo.step

/-- The full per-artifact step trace a configuration prescribes. -/
def Config.fullTrace (c : Config) : List Step :=
  Step.build :: (c.sumTrace allAlgos ++ (if c.ZipFile then [Step.zip] else []))

theorem sumTrace_cons_pos {cfg : Config} {algo : Algo} (rest : List Algo)
    (h : cfg.flag algo = true) :
    cfg.sumTrace (algo :: rest) = algo.step :: cfg.sumTrace rest := by
  simp [Config.sumTrace, List.filter_cons, h]

theorem sumTrace_cons_neg {cfg : Config} {algo : Algo} (rest : List Algo)
    (h : cfg.flag algo = false) :
    cfg.sumTrace (algo :: rest) = cfg.sumTrace rest := by
  simp [Config.sumTrace, List.filter_cons, h]

theorem stepErr_algoStep (al : Algo) : stepErr al.step = al.errCode := by
  cases al <;> rfl

/-! ### Mononicity: the pipeline never deletes a file -/

theorem CreateSumFile_read_none {b : Artifact} {h : String → List Nat}
    {artifact filename q : String} {fs : FS}
    (hn : (b.CreateSumFile h artifact filename fs).1.read q = none) : fs.read q = none := by
  cases hrd : fs.read artifact with
  | none =>
    simp only [Artifact.CreateSumFile, hrd] at hn
    exact hn
  | some fd =>
    cases fd with
    | bytes data =>
      simp only [Artifact.CreateSumFile, hrd] at hn
      exact FS.read_write_none hn
    | openFail =>
      simp only [Artifact.CreateSumFile, hrd] at hn
      exact hn
    | readFail =>
      simp only [Artifact.CreateSumFile, hrd] at hn
      exact hn
    | zipArchive es =>
      simp only [Artifact.CreateSumFile, hrd] at hn
      exact FS.read_write_none hn

theorem CreatZipFile_read_none {b : Artifact} {artifact filename q : String} {fs : FS}
    (hn : (b.CreatZipFile artifact filename fs).1.read q = none) : fs.read q = none := by
  cases hrd : (fs.write filename (FileData.zipArchive [])).read artifact with
  | none =>
    simp only [Artifact.CreatZipFile, hrd] at hn
    exact FS.read_write_none hn
  | some fd =>
    cases fd with
    | bytes data =>
      simp only [Artifact.CreatZipFile, hrd] at hn
      exact FS.read_write_none (FS.read_write_none hn)
    | openFail =>
      simp only [Artifact.CreatZipFile, hrd] at hn
      exact FS.read_write_none hn
    | readFail =>
      simp only [Artifact.CreatZipFile, hrd] at hn
      exact FS.read_write_none (FS.read_write_none hn)
    | zipArchive es =>
      simp only [Artifact.CreatZipFile, hrd] at hn
      exact FS.read_write_none (FS.read_write_none hn)

/-- Successful archiving of a readable artifact. -/
theorem CreatZipFile_bytes {b : Artifact} {artifact filename : String} {fs : FS} {data : String}
    (hne : artifact ≠ filename)
    (hr : fs.read artifact = some (FileData.bytes data)) :
    b.CreatZipFile artifact filename fs =
      ((fs.write filename (FileData.zipArchive [])).write filename
        (FileData.zipArchive [⟨baseName artifact, zipDeflate, 0, data⟩]), none) := by
  have hr1 : (fs.write filename (FileData.zipArchive [])).read artifact =
      some (FileData.bytes data) := by
    rw [FS.read_write_ne _ _ hne]
    exact hr
  simp [Artifact.CreatZipFile, hr1]

/-! ### runSums lemmas -/

theorem runSums_none_trace {H : Algo → String → List Nat} {cfg : Config} {a : Artifact} :
    ∀ {algos : List Algo} {fs fs' : FS} {tr : List Step},
      runSums H cfg a algos fs = (fs', tr, none) → tr = cfg.sumTrace algos := by
  intro algos
  induction algos with
  | nil =>
    intro fs fs' tr h
    simp only [runSums, Prod.mk.injEq] at h
    obtain ⟨-, h2, -⟩ := h
    rw [← h2]
    rfl
  | cons algo rest ih =>
    intro fs fs' tr h
    rw [runSums] at h
    cases hf : cfg.flag algo with
    | false =>
      rw [hf] at h
      simp only [Bool.false_eq_true, if_false] at h
      rw [sumTrace_cons_neg rest hf]
      exact ih h
    | true =>
      rw [hf] at h
      simp only [if_true] at h
      rcases hcs : a.CreateSumFile (H algo) (artifactPath cfg.OutDir a.Name)
          (sumFileName cfg.OutDir a.Name algo) fs with ⟨fs₁, err⟩
      rw [hcs] at h
      cases err with
      | some e => simp at h
      | none =>
        rcases hrs : runSums H cfg a rest fs₁ with ⟨fs₂, tr₂, r₂⟩
        simp only [] at h
        rw [hrs] at h
        simp only [Prod.mk.injEq] at h
        obtain ⟨-, h2, h3⟩ := h
        rw [h3] at hrs
        rw [sumTrace_cons_pos rest hf, ← h2, ih hrs]

theorem runSums_some {H : Algo → String → List Nat} {cfg : Config} {a : Artifact} :
    ∀ {algos : List Algo} {fs fs' : FS} {tr : List Step} {c : Nat},
      runSums H cfg a algos fs = (fs', tr, some c) →
      tr <+: cfg.sumTrace algos ∧ ∃ al : Algo, tr.getLast? = some al.step ∧ c = al.errCode := by
  intro algos
  induction algos with
  | nil =>
    intro fs fs' tr c h
    simp [runSums] at h
  | cons algo rest ih =>
    intro fs fs' tr c h
    rw [runSums] at h
    cases hf : cfg.flag algo with
    | false =>
      rw [hf] at h
      simp only [Bool.false_eq_true, if_false] at h
      obtain ⟨hpre, hex⟩ := ih h
      rw [sumTrace_cons_neg rest hf]
      exact ⟨hpre, hex⟩
    | true =>
      rw [hf] at h
      simp only [if_true] at h
      rcases hcs : a.CreateSumFile (H algo) (artifactPath cfg.OutDir a.Name)
          (sumFileName cfg.OutDir a.Name algo) fs with ⟨fs₁, err⟩
      rw [hcs] at h
      cases err with
      | some e =>
        simp only [Prod.mk.injEq, Option.some.injEq] at h
        obtain ⟨-, h2, h3⟩ := h
        rw [sumTrace_cons_pos rest hf, ← h2, ← h3]
        exact ⟨⟨cfg.sumTrace rest, rfl⟩, algo, rfl, rfl⟩
      | none =>
        rcases hrs : runSums H cfg a rest fs₁ with ⟨fs₂, tr₂, r₂⟩
        simp only [] at h
        rw [hrs] at h
        simp only [Prod.mk.injEq] at h
        obtain ⟨-, h2, h3⟩ := h
        rw [h3] at hrs
        obtain ⟨hpre, al, hlast, hcode⟩ := ih hrs
        rw [sumTrace_cons_pos rest hf, ← h2]
        refine ⟨List.cons_prefix_cons.mpr ⟨rfl, hpre⟩, al, ?_, hcode⟩
        cases tr₂ with
        | nil => cases hlast
        | cons s ts => rw [List.getLast?_cons_cons]; exact hlast

theorem runSums_read_none {H : Algo → String → List Nat} {cfg : Config} {a : Artifact} :
    ∀ {algos : List Algo} {fs : FS} {q : String},
      ((runSums H cfg a algos fs).1.read q = none) → fs.read q = none := by
  intro algos
  induction algos with
  | nil =>
    intro fs q h
    exact h
  | cons algo rest ih =>
    intro fs q h
    rw [runSums] at h
    cases hf : cfg.flag algo with
    | false =>
      rw [hf] at h
      simp only [Bool.false_eq_true, if_false] at h
      exact ih h
    | true =>
      rw [hf] at h
      simp only [if_true] at h
      rcases hcs : a.CreateSumFile (H algo) (artifactPath cfg.OutDir a.Name)
          (sumFileName cfg.OutDir a.Name algo) fs with ⟨fs₁, err⟩
      rw [hcs] at h
      cases err with
      | some e =>
        have h1 : (a.CreateSumFile (H algo) (artifactPath cfg.OutDir a.Name)
            (sumFileName cfg.OutDir a.Name algo) fs).1.read q = none := by
          rw [hcs]
          exact h
        exact CreateSumFile_read_none h1
      | none =>
        rcases hrs : runSums H cfg a rest fs₁ with ⟨fs₂, tr₂, r₂⟩
        simp only [] at h
        rw [hrs] at h
        have h1 : fs₁.read q = none := by
          apply ih
          rw [hrs]
          exact h
        have h2 : (a.CreateSumFile (H algo) (artifactPath cfg.OutDir a.Name)
            (sumFileName cfg.OutDir a.Name algo) fs).1.read q = none := by
          rw [hcs]
          exact h1
        exact CreateSumFile_read_none h2

/-! ### processArtifact lemmas -/

theorem processArtifact_none_trace {H : Algo → String → List Nat} {B : Artifact → Option String}
    {cfg : Config} {a : Artifact} {fs fs' : FS} {tr : List Step}
    (h : processArtifact H B cfg a fs = (fs', tr, none)) : tr = cfg.fullTrace := by
  simp only [processArtifact] at h
  cases hb : B a with
  | none =>
    rw [hb] at h
    simp at h
  | some out =>
    rw [hb] at h
    simp only [] at h
    rcases hrs : runSums H cfg a allAlgos
        (fs.write (artifactPath cfg.OutDir a.Name) (FileData.bytes out)) with ⟨fs₁, tr₁, r₁⟩
    rw [hrs] at h
    cases r₁ with
    | some c => simp at h
    | none =>
      simp only [] at h
      cases hz : cfg.ZipFile with
      | false =>
        rw [hz] at h
        simp only [Bool.false_eq_true, if_false, Prod.mk.injEq] at h
        obtain ⟨-, h2, -⟩ := h
        rw [← h2, Config.fullTrace, runSums_none_trace hrs, hz]
        simp
      | true =>
        rw [hz] at h
        simp only [if_true] at h
        rcases hcz : a.CreatZipFile (artifactPath cfg.OutDir a.Name)
            (zipFileName cfg.OutDir a.Name) fs₁ with ⟨fs₂, err⟩
        rw [hcz] at h
        cases err with
        | some e => simp at h
        | none =>
          simp only [Prod.mk.injEq] at h
          obtain ⟨-, h2, -⟩ := h
          rw [← h2, Config.fullTrace, runSums_none_trace hrs, hz]
          simp

theorem processArtifact_some_spec {H : Algo → String → List Nat} {B : Artifact → Option String}
    {cfg : Config} {a : Artifact} {fs fs' : FS} {tr : List Step} {c : Nat}
    (h : processArtifact H B cfg a fs = (fs', tr, some c)) :
    tr ≠ [] ∧ tr <+: cfg.fullTrace ∧ ∃ s : Step, tr.getLast? = some s ∧ c = stepErr s := by
  simp only [processArtifact] at h
  cases hb : B a with
  | none =>
    rw [hb] at h
    simp only [Prod.mk.injEq, Option.some.injEq] at h
    obtain ⟨-, h2, h3⟩ := h
    rw [← h2, ← h3]
    exact ⟨by simp, List.cons_prefix_cons.mpr ⟨rfl, List.nil_prefix⟩, Step.build, rfl, rfl⟩
  | some out =>
    rw [hb] at h
    simp only [] at h
    rcases hrs : runSums H cfg a allAlgos
        (fs.write (artifactPath cfg.OutDir a.Name) (FileData.bytes out)) with ⟨fs₁, tr₁, r₁⟩
    rw [hrs] at h
    cases r₁ with
    | some c₁ =>
      simp only [Prod.mk.injEq, Option.some.injEq] at h
      obtain ⟨-, h2, h3⟩ := h
      obtain ⟨hpre, al, hlast, hcode⟩ := runSums_some hrs
      rw [← h2, ← h3]
      refine ⟨by simp, ?_, al.step, ?_, by rw [hcode, stepErr_algoStep]⟩
      · exact List.cons_prefix_cons.mpr ⟨rfl, hpre.trans (List.prefix_append _ _)⟩
      · cases tr₁ with
        | nil => cases hlast
        | cons s ts => rw [List.getLast?_cons_cons]; exact hlast
    | none =>
      simp only [] at h
      cases hz : cfg.ZipFile with
      | false =>
        rw [hz] at h
        simp at h
      | true =>
        rw [hz] at h
        simp only [if_true] at h
        rcases hcz : a.CreatZipFile (artifactPath cfg.OutDir a.Name)
            (zipFileName cfg.OutDir a.Name) fs₁ with ⟨fs₂, err⟩
        rw [hcz] at h
        cases err with
        | some e =>
          simp only [Prod.mk.injEq, Option.some.injEq] at h
          obtain ⟨-, h2, h3⟩ := h
          rw [← h2, ← h3]
          refine ⟨by simp, ?_, Step.zip, ?_, rfl⟩
          · rw [runSums_none_trace hrs, Config.fullTrace, hz]
            simp [List.cons_append]
          · exact List.getLast?_concat _
        | none => simp at h

theorem processArtifact_read_none {H : Algo → String → List Nat} {B : Artifact → Option String}
    {cfg : Config} {a : Artifact} {fs : FS} {q : String}
    (h : (processArtifact H B cfg a fs).1.read q = none) : fs.read q = none := by
  simp only [processArtifact] at h
  cases hb : B a with
  | none =>
    rw [hb] at h
    exact h
  | some out =>
    rw [hb] at h
    simp only [] at h
    rcases hrs : runSums H cfg a allAlgos
        (fs.write (artifactPath cfg.OutDir a.Name) (FileData.bytes out)) with ⟨fs₁, tr₁, r₁⟩
    rw [hrs] at h
    have step2 : fs₁.read q = none → fs.read q = none := by
      intro h1
      have h2 : (runSums H cfg a allAlgos
          (fs.write (artifactPath cfg.OutDir a.Name) (FileData.bytes out))).1.read q = none := by
        rw [hrs]
        exact h1
      exact FS.read_write_none (runSums_read_none h2)
    cases r₁ with
    | some c => exact step2 h
    | none =>
      simp only [] at h
      cases hz : cfg.ZipFile with
      | false =>
        rw [hz] at h
        simp only [Bool.false_eq_true, if_false] at h
        exact step2 h
      | true =>
        rw [hz] at h
        simp only [if_true] at h
        rcases hcz : a.CreatZipFile (artifactPath cfg.OutDir a.Name)
            (zipFileName cfg.OutDir a.Name) fs₁ with ⟨fs₂, err⟩
        rw [hcz] at h
        have h1 : (a.CreatZipFile (artifactPath cfg.OutDir a.Name)
            (zipFileName cfg.OutDir a.Name) fs₁).1.read q = none := by
          rw [hcz]
          cases err <;> exact h
        exact step2 (CreatZipFile_read_none h1)

/-! ### workLoop lemmas -/

theorem workLoop_cons_fail {H : Algo → String → List Nat} {B : Artifact → Option String}
    {cfg : Config} {a : Artifact} {fs fs₁ : FS} {tr : List Step} {c : Nat}
    (rest : List Artifact)
    (h : processArtifact H B cfg a fs = (fs₁, tr, some c)) :
    workLoop H B cfg (a :: rest) fs = (fs₁, tr, some c) := by
  rw [workLoop, h]

theorem workLoop_cons_ok {H : Algo → String → List Nat} {B : Artifact → Option String}
    {cfg : Config} {a : Artifact} {fs fs₁ : FS} {tr : List Step}
    (rest : List Artifact)
    (h : processArtifact H B cfg a fs = (fs₁, tr, none)) :
    workLoop H B cfg (a :: rest) fs =
      ((workLoop H B cfg rest fs₁).1, tr ++ (workLoop H B cfg rest fs₁).2.1,
        (workLoop H B cfg rest fs₁).2.2) := by
  rw [workLoop, h]

theorem workLoop_read_none {H : Algo → String → List Nat} {B : Artifact → Option String}
    {cfg : Config} :
    ∀ {arts : List Artifact} {fs : FS} {q : String},
      (workLoop H B cfg arts fs).1.read q = none → fs.read q = none := by
  intro arts
  induction arts with
  | nil =>
    intro fs q h
    exact h
  | cons a rest ih =>
    intro fs q h
    rcases hp : processArtifact H B cfg a fs with ⟨fs₁, tr₁, r₁⟩
    have h1 : fs₁.read q = none → fs.read q = none := by
      intro h2
      have h3 : (processArtifact H B cfg a fs).1.read q = none := by
        rw [hp]
        exact h2
      exact processArtifact_read_none h3
    cases r₁ with
    | some c =>
      rw [workLoop_cons_fail rest hp] at h
      exact h1 h
    | none =>
      rw [workLoop_cons_ok rest hp] at h
      exact h1 (ih h)

theorem workLoop_some_stepErr {H : Algo → String → List Nat} {B : Artifact → Option String}
    {cfg : Config} :
    ∀ {arts : List Artifact} {fs fs' : FS} {tr : List Step} {c : Nat},
      workLoop H B cfg arts fs = (fs', tr, some c) → ∃ s : Step, c = stepErr s := by
  intro arts
  induction arts with
  | nil =>
    intro fs fs' tr c h
    simp [workLoop] at h
  | cons a rest ih =>
    intro fs fs' tr c h
    rcases hp : processArtifact H B cfg a fs with ⟨fs₁, tr₁, r₁⟩
    cases r₁ with
    | some c₁ =>
      rw [workLoop_cons_fail rest hp] at h
      simp only [Prod.mk.injEq, Option.some.injEq] at h
      obtain ⟨-, -, h3⟩ := h
      obtain ⟨-, -, s, -, hcode⟩ := processArtifact_some_spec hp
      exact ⟨s, by rw [← h3, hcode]⟩
    | none =>
      rw [workLoop_cons_ok rest hp] at h
      rcases hw : workLoop H B cfg rest fs₁ with ⟨fs₂, tr₂, r₂⟩
      rw [hw] at h
      simp only [Prod.mk.injEq] at h
      obtain ⟨-, -, h3⟩ := h
      rw [h3] at hw
      exact ih hw

/-! ### Trace membership lemmas -/

theorem Algo.step_inj {a b : Algo} (h : a.step = b.step) : a = b := by
  cases a <;> cases b <;> first | rfl | exact absurd h (by decide)

theorem Algo.step_ne_build (al : Algo) : al.step ≠ Step.build := by
  cases al <;> decide

theorem Algo.step_ne_zip (al : Algo) : al.step ≠ Step.zip := by
  cases al <;> decide

theorem Algo.mem_allAlgos (al : Algo) : al ∈ allAlgos := by
  cases al <;> decide

theorem fullTrace_mem_algo (cfg : Config) (al : Algo) :
    al.step ∈ cfg.fullTrace ↔ cfg.flag al = true := by
  constructor
  · intro h
    rcases List.mem_cons.mp h with he | h
    · exact absurd he (Algo.step_ne_build al)
    · rcases List.mem_append.mp h with h | h
      · obtain ⟨al', hal', he⟩ := List.mem_map.mp h
        have h2 := (List.mem_filter.mp hal').2
        rwa [Algo.step_inj he] at h2
      · cases hz : cfg.ZipFile with
        | false => rw [hz] at h; simp at h
        | true =>
          rw [hz] at h
          simp only [if_true, List.mem_singleton] at h
          exact absurd h (Algo.step_ne_zip al)
  · intro hf
    apply List.mem_cons_of_mem
    apply List.mem_append_left
    exact List.mem_map.mpr ⟨al, List.mem_filter.mpr ⟨Algo.mem_allAlgos al, hf⟩, rfl⟩

theorem fullTrace_mem_zip (cfg : Config) :
    Step.zip ∈ cfg.fullTrace ↔ cfg.ZipFile = true := by
  constructor
  · intro h
    rcases List.mem_cons.mp h with he | h
    · cases he
    · rcases List.mem_append.mp h with h | h
      · obtain ⟨al', -, he⟩ := List.mem_map.mp h
        exact absurd he (Algo.step_ne_zip al')
      · cases hz : cfg.ZipFile with
        | false => rw [hz] at h; simp at h
        | true => rfl
  · intro hz
    apply List.mem_cons_of_mem
    apply List.mem_append_right
    rw [hz]
    simp

theorem fullTrace_mem_build (cfg : Config) : Step.build ∈ cfg.fullTrace :=
  List.mem_cons_self _ _

/-! ### work lemmas -/

theorem work_load_error (skipBuild saveOk : Bool) (e : LoadError)
    (H : Algo → String → List Nat) (B : Artifact → Option String) (fs : FS) :
    work false false skipBuild saveOk (Except.error e) H B fs =
      (fs, [], ErrorConfigFileNotFound) := rfl

theorem work_srcDir_missing {skipBuild saveOk : Bool} {cfg : Config}
    (H : Algo → String → List Nat) (B : Artifact → Option String) (fs : FS)
    (h : fs.dirs.contains cfg.SrcDir = false) :
    work false false skipBuild saveOk (Except.ok cfg) H B fs =
      (fs, [], ErrorSrcDirNotFound) := by
  have hm : cfg.SrcDir ∉ fs.dirs := by simpa using h
  simp [work, hm]

theorem work_outDir_missing {skipBuild saveOk : Bool} {cfg : Config}
    (H : Algo → String → List Nat) (B : Artifact → Option String) (fs : FS)
    (h1 : fs.dirs.contains cfg.SrcDir = true)
    (h2 : fs.dirs.contains cfg.OutDir = false) :
    work false false skipBuild saveOk (Except.ok cfg) H B fs =
      (fs, [], ErrorOutDirNotFound) := by
  have hm1 : cfg.SrcDir ∈ fs.dirs := by simpa using h1
  have hm2 : cfg.OutDir ∉ fs.dirs := by simpa using h2
  simp [work, hm1, hm2]

theorem work_run {saveOk : Bool} {cfg : Config}
    (H : Algo → String → List Nat) (B : Artifact → Option String) (fs : FS)
    (h1 : fs.dirs.contains cfg.SrcDir = true)
    (h2 : fs.dirs.contains cfg.OutDir = true) :
    work false false false saveOk (Except.ok cfg) H B fs =
      ((workLoop H B cfg cfg.Artifacts fs).1, (workLoop H B cfg cfg.Artifacts fs).2.1,
        ((workLoop H B cfg cfg.Artifacts fs).2.2).getD NoError) := by
  simp only [work, h1, h2, Bool.not_true, Bool.false_eq_true, if_false]
  rcases hw : workLoop H B cfg cfg.Artifacts fs with ⟨fs', tr, r⟩
  cases r <;> simp

/-- The exit statuses `work` can actually produce. -/
def reachableCodes : List Nat :=
  [NoError, ErrorConfigFileNotFound, ErrorSrcDirNotFound, ErrorOutDirNotFound,
   ErrorInitConfig, ErrorGoBuild, ErrorMD5SumFile, ErrorSHA1SumFile, ErrorSHA256SumFile,
   ErrorSHA512SumFile, ErrorZipFile]

theorem work_exit_mem (v i sb sv : Bool) (load : Except LoadError Config)
    (H : Algo → String → List Nat) (B : Artifact → Option String) (fs : FS) :
    (work v i sb sv load H B fs).2.2 ∈ reachableCodes := by
  cases v with
  | true => exact (by decide : NoError ∈ reachableCodes)
  | false =>
    cases i with
    | true =>
      cases sv with
      | true => exact (by decide : NoError ∈ reachableCodes)
      | false => exact (by decide : ErrorInitConfig ∈ reachableCodes)
    | false =>
      cases load with
      | error e => exact (by decide : ErrorConfigFileNotFound ∈ reachableCodes)
      | ok cfg =>
        cases h1 : fs.dirs.contains cfg.SrcDir with
        | false =>
          rw [work_srcDir_missing H B fs h1]
          exact (by decide : ErrorSrcDirNotFound ∈ reachableCodes)
        | true =>
          cases h2 : fs.dirs.contains cfg.OutDir with
          | false =>
            rw [work_outDir_missing H B fs h1 h2]
            exact (by decide : ErrorOutDirNotFound ∈ reachableCodes)
          | true =>
            cases sb with
            | true =>
              simp only [work, h1, h2, Bool.not_true, Bool.false_eq_true, if_false, if_true]
              exact (by decide : NoError ∈ reachableCodes)
            | false =>
              rw [work_run H B fs h1 h2]
              rcases hw : workLoop H B cfg cfg.Artifacts fs with ⟨fs', tr, r⟩
              cases r with
              | none => exact (by decide : NoError ∈ reachableCodes)
              | some c =>
                obtain ⟨s, rfl⟩ := workLoop_some_stepErr hw
                cases s <;>
                  simp only [Option.getD_some] <;>
                  exact (by decide)

/-! ### Concrete instances used by the witness theorems -/

/-- A concrete stand-in digest function. -/
def exH : Algo → String → List Nat := fun _ s => [s.length % 256]

/-- A concrete artifact. -/
def exArt : Artifact := ⟨"app", "linux", "amd64", false, []⟩

/-- A second concrete artifact. -/
def exArt2 : Artifact := ⟨"app2", "windows", "arm64", true, ["-race"]⟩

/-- A concrete filesystem holding the built binary. -/
def exFS : FS := ⟨[("build/app", FileData.bytes "AB")], ["build", "."]⟩

/-- A concrete empty filesystem with the two directories present. -/
def exFS0 : FS := ⟨[], ["build", "."]⟩

/-- The binary exists elsewhere with the same bytes. -/
def exFS2 : FS := ⟨[("out/app", FileData.bytes "AB"), ("x", FileData.bytes "y")], ["out"]⟩

/-- The artifact file is missing. -/
def exFSmissing : FS := ⟨[], ["build"]⟩

/-- The artifact file exists but cannot be opened. -/
def exFSopenFail : FS := ⟨[("build/app", FileData.openFail)], ["build"]⟩

/-- The artifact file opens but cannot be read. -/
def exFSreadFail : FS := ⟨[("build/app", FileData.readFail)], ["build"]⟩

/-- A compiler oracle that always succeeds, writing the bytes "AB". -/
def exB : Artifact → Option String := fun _ => some "AB"

/-- A compiler oracle that always fails. -/
def exBfail : Artifact → Option String := fun _ => none

/-- The scenario configuration: only sha256 and zip enabled. -/
def exCfg : Config :=
  { OutDir := "build", SrcDir := ".", MD5 := false, SHA1 := false, SHA256 := true
    SHA512 := false, ZipFile := true, Artifacts := [exArt, exArt2] }

/-! ### Claims -/

/-- Claim C1: for every artifact and enabled checksum algorithm, `CreateSumFile`
writes the destination file (overwriting it if present) with exactly one line:
the lowercase hexadecimal digest of the artifact file's bytes, a single space,
and the artifact's declared `Name` (not its file path), terminated by a
newline; the destination filename follows `<outDir>/<name>.<algo>.txt`. -/
theorem C1_sum_file_format (b : Artifact) (h : String → List Nat)
    (artifact filename : String) (fs : FS) (data : String)
    (hread : fs.read artifact = some (FileData.bytes data))
    (hname : '\n' ∉ b.Name.data) :
    b.CreateSumFile h artifact filename fs =
        (fs.write filename (FileData.bytes (sumRecord h b.Name data)), none)
    ∧ (b.CreateSumFile h artifact filename fs).1.read filename =
        some (FileData.bytes (sumRecord h b.Name data))
    ∧ (∀ q, q ≠ filename →
        (b.CreateSumFile h artifact filename fs).1.read q = fs.read q)
    ∧ (sumRecord h b.Name data).data = hexChars (h data) ++ ' ' :: (b.Name.data ++ ['\n'])
    ∧ (∀ c ∈ hexChars (h data), c ∈ hexDigits)
    ∧ (sumRecord h b.Name data).data.count '\n' = 1
    ∧ (sumRecord h b.Name data).data.getLast? = some '\n'
    ∧ (∀ outDir name algo, sumFileName outDir name algo =
        outDir ++ "/" ++ name ++ ("." ++ (Algo.ext algo ++ ".txt"))) := by
  refine ⟨CreateSumFile_bytes hread, ?_, ?_, rfl, ?_, ?_, ?_, ?_⟩
  · rw [CreateSumFile_bytes hread]
    exact FS.read_write_self _ _ _
  · intro q hq
    rw [CreateSumFile_bytes hread]
    exact FS.read_write_ne _ _ hq
  · intro c hc
    exact mem_hexChars hc
  · exact sumRecord_count_newline h _ _ hname
  · exact sumRecord_getLast h _ _
  · intro outDir name algo
    rfl

/-- Witness for C1 at concrete inputs. -/
theorem C1_witness :
    exArt.CreateSumFile (exH Algo.sha256) "build/app" "build/app.sha256.txt" exFS =
      (exFS.write "build/app.sha256.txt"
        (FileData.bytes (sumRecord (exH Algo.sha256) "app" "AB")), none) :=
  (C1_sum_file_format exArt (exH Algo.sha256) "build/app" "build/app.sha256.txt" exFS "AB"
    (by decide) (by decide)).1

/-- Counterexample for C2 as stated: the zip entry `CreatZipFile` produces is
not marked executable; its recorded permission bits are 0, not 0755, because
`zipWriter.Create` never sets a mode. -/
theorem C2_counterexample :
    (exArt.CreatZipFile "build/app" "build/app.zip" exFS).1.read "build/app.zip" =
        some (FileData.zipArchive [⟨"app", zipDeflate, 0, "AB"⟩])
    ∧ (ZipEntry.mk "app" zipDeflate 0 "AB").mode ≠ 0o755 :=
  ⟨by decide, by decide⟩

/-- Claim C2 (amended): for every readable artifact file, `CreatZipFile`
produces a zip archive containing exactly one entry at archive root, named by
the binary's base filename, holding the binary's bytes, compressed with
standard deflate; the entry's permission bits are the `Create` default 0 (the
entry is not marked executable). -/
theorem C2_amended_zip_format (b : Artifact) (outDir name : String) (fs : FS) (data : String)
    (hnm : name.data ≠ []) (hslash : '/' ∉ name.data)
    (hread : fs.read (artifactPath outDir name) = some (FileData.bytes data)) :
    (b.CreatZipFile (artifactPath outDir name) (zipFileName outDir name) fs).2 = none
    ∧ (b.CreatZipFile (artifactPath outDir name) (zipFileName outDir name) fs).1.read
        (zipFileName outDir name) = some (FileData.zipArchive [⟨name, zipDeflate, 0, data⟩])
    ∧ baseName (artifactPath outDir name) = name
    ∧ (∀ q, q ≠ zipFileName outDir name →
        (b.CreatZipFile (artifactPath outDir name) (zipFileName outDir name) fs).1.read q =
          fs.read q)
    ∧ (ZipEntry.mk name zipDeflate 0 data).mode = 0 := by
  have hne : artifactPath outDir name ≠ zipFileName outDir name :=
    fun e => zipFileName_ne_artifactPath outDir name e.symm
  have hbase : baseName (artifactPath outDir name) = name := baseName_append outDir name hslash hnm
  refine ⟨?_, ?_, hbase, ?_, rfl⟩
  · rw [CreatZipFile_bytes hne hread]
  · rw [CreatZipFile_bytes hne hread, hbase]
    exact FS.read_write_self _ _ _
  · intro q hq
    rw [CreatZipFile_bytes hne hread]
    rw [FS.read_write_ne _ _ hq, FS.read_write_ne _ _ hq]

/-- Witness for the amended C2 at concrete inputs. -/
theorem C2_witness :
    (exArt.CreatZipFile (artifactPath "build" "app") (zipFileName "build" "app") exFS).1.read
        (zipFileName "build" "app") =
      some (FileData.zipArchive [⟨"app", zipDeflate, 0, "AB"⟩]) :=
  (C2_amended_zip_format exArt "build" "app" exFS "AB" (by decide) (by decide)
    (by decide)).2.1

/-- Claim C8: the checksum record is a deterministic function of the file
bytes and the artifact's declared name — two runs over the same binary bytes
produce byte-identical records, wherever the file lives. -/
theorem C8_determinism (h : String → List Nat) (b : Artifact)
    (a₁ a₂ f₁ f₂ : String) (fs₁ fs₂ : FS) (data : String)
    (h₁ : fs₁.read a₁ = some (FileData.bytes data))
    (h₂ : fs₂.read a₂ = some (FileData.bytes data)) :
    (b.CreateSumFile h a₁ f₁ fs₁).1.read f₁ =
        some (FileData.bytes (sumRecord h b.Name data))
    ∧ (b.CreateSumFile h a₂ f₂ fs₂).1.read f₂ =
        some (FileData.bytes (sumRecord h b.Name data))
    ∧ (b.CreateSumFile h a₁ f₁ fs₁).1.read f₁ = (b.CreateSumFile h a₂ f₂ fs₂).1.read f₂ := by
  refine ⟨?_, ?_, ?_⟩
  · rw [CreateSumFile_bytes h₁]
    exact FS.read_write_self _ _ _
  · rw [CreateSumFile_bytes h₂]
    exact FS.read_write_self _ _ _
  · rw [CreateSumFile_bytes h₁, CreateSumFile_bytes h₂,
      FS.read_write_self, FS.read_write_self]

/-- Witness for C8: the same binary at two different paths in two different
filesystems yields the same record. -/
theorem C8_witness :
    (exArt.CreateSumFile (exH Algo.md5) "build/app" "build/app.md5.txt" exFS).1.read
        "build/app.md5.txt" =
      (exArt.CreateSumFile (exH Algo.md5) "out/app" "out/app.md5.txt" exFS2).1.read
        "out/app.md5.txt" :=
  (C8_determinism (exH Algo.md5) exArt "build/app" "out/app" "build/app.md5.txt"
    "out/app.md5.txt" exFS exFS2 "AB" (by decide) (by decide)).2.2

/-- Claim C9: `CreateSumFile` is atomic with respect to its destination — if
opening the artifact or reading its contents for hashing fails, an error is
returned and the filesystem (in particular the destination file) is left
untouched, because the write happens only after hashing succeeds. -/
theorem C9_sum_failure_atomic (b : Artifact) (h : String → List Nat)
    (artifact filename : String) (fs : FS) :
    (fs.read artifact = none →
      b.CreateSumFile h artifact filename fs =
        (fs, some ("error opening artifact " ++ artifact)))
    ∧ (fs.read artifact = some FileData.openFail →
      b.CreateSumFile h artifact filename fs =
        (fs, some ("error opening artifact " ++ artifact)))
    ∧ (fs.read artifact = some FileData.readFail →
      b.CreateSumFile h artifact filename fs =
        (fs, some ("error hashing file " ++ artifact))) := by
  refine ⟨fun hr => ?_, fun hr => ?_, fun hr => ?_⟩ <;> simp [Artifact.CreateSumFile, hr]

/-- Witness for C9 at concrete inputs: missing, unopenable and unreadable
artifact files all leave the filesystem unchanged. -/
theorem C9_witness :
    exArt.CreateSumFile (exH Algo.md5) "build/app" "build/app.md5.txt" exFSmissing =
      (exFSmissing, some "error opening artifact build/app")
    ∧ exArt.CreateSumFile (exH Algo.md5) "build/app" "build/app.md5.txt" exFSopenFail =
      (exFSopenFail, some "error opening artifact build/app")
    ∧ exArt.CreateSumFile (exH Algo.md5) "build/app" "build/app.md5.txt" exFSreadFail =
      (exFSreadFail, some "error hashing file build/app") :=
  ⟨(C9_sum_failure_atomic exArt (exH Algo.md5) "build/app" "build/app.md5.txt"
      exFSmissing).1 (by decide),
   (C9_sum_failure_atomic exArt (exH Algo.md5) "build/app" "build/app.md5.txt"
      exFSopenFail).2.1 (by decide),
   (C9_sum_failure_atomic exArt (exH Algo.md5) "build/app" "build/app.md5.txt"
      exFSreadFail).2.2 (by decide)⟩

/-- Claim C10: `CreatZipFile` creates (truncating if present) the destination
zip before opening the artifact, so when the artifact is missing or unreadable
the call returns an error but a freshly created archive file is nevertheless
left at the destination — the failed archive step is not atomic. -/
theorem C10_zip_not_atomic (b : Artifact) (artifact filename : String) (fs : FS)
    (hne : artifact ≠ filename) :
    (fs.read artifact = none →
      (b.CreatZipFile artifact filename fs).2 =
          some ("error opening artifact " ++ artifact)
      ∧ (b.CreatZipFile artifact filename fs).1.read filename =
          some (FileData.zipArchive []))
    ∧ (fs.read artifact = some FileData.openFail →
      (b.CreatZipFile artifact filename fs).2 =
          some ("error opening artifact " ++ artifact)
      ∧ (b.CreatZipFile artifact filename fs).1.read filename =
          some (FileData.zipArchive []))
    ∧ (fs.read artifact = some FileData.readFail →
      (b.CreatZipFile artifact filename fs).2 =
          some ("error copying artifact to zip " ++ artifact)
      ∧ (b.CreatZipFile artifact filename fs).1.read filename =
          some (FileData.zipArchive [⟨baseName artifact, zipDeflate, 0, ""⟩])) := by
  refine ⟨fun hr => ?_, fun hr => ?_, fun hr => ?_⟩ <;>
  · have hr1 : (fs.write filename (FileData.zipArchive [])).read artifact = fs.read artifact :=
      FS.read_write_ne _ _ hne
    rw [hr] at hr1
    constructor <;> simp [Artifact.CreatZipFile, hr1, FS.read_write_self]

/-- Witness for C10 at concrete inputs: after a failed call on a missing and
on an unreadable artifact, the destination archive file exists. -/
theorem C10_witness :
    ((exArt.CreatZipFile "build/app" "build/app.zip" exFSmissing).2 =
        some "error opening artifact build/app"
      ∧ (exArt.CreatZipFile "build/app" "build/app.zip" exFSmissing).1.read "build/app.zip" =
        some (FileData.zipArchive []))
    ∧ ((exArt.CreatZipFile "build/app" "build/app.zip" exFSreadFail).2 =
        some "error copying artifact to zip build/app"
      ∧ (exArt.CreatZipFile "build/app" "build/app.zip" exFSreadFail).1.read "build/app.zip" =
        some (FileData.zipArchive [⟨"app", zipDeflate, 0, ""⟩])) :=
  ⟨(C10_zip_not_atomic exArt "build/app" "build/app.zip" exFSmissing (by decide)).1
      (by decide),
   (C10_zip_not_atomic exArt "build/app" "build/app.zip" exFSreadFail (by decide)).2.2
      (by decide)⟩

/-- Claim C3: for every ArtifactSpec, the build operation invokes the external
toolchain with environment variables selecting the target OS and architecture,
plus the native-interop (`CGO_ENABLED`) toggle, plus the artifact's extra flags
appended to the standard `go build -o <target>` invocation, producing a single
executable at `outputDir/name`.  (The flags-aware `Artifact.Build` revision is
modelled from the spec; `Config.AddBuild` is embedded from config.go.) -/
theorem C3_build_invocation (c : Config) (name os arch : String) (cgo : Bool)
    (flags : List String) (srcDir outDir : String) :
    ((c.AddBuild name os arch cgo flags).Artifacts.getLast? =
        some ⟨name, os, arch, cgo, flags⟩)
    ∧ (Artifact.mk name os arch cgo flags).buildInvocation srcDir outDir =
        { args := ["build", "-o", artifactPath outDir name] ++ flags
          envGOOS := "GOOS=" ++ os
          envGOARCH := "GOARCH=" ++ arch
          envCGO := "CGO_ENABLED=" ++ (if cgo then "1" else "0")
          dir := srcDir
          target := artifactPath outDir name }
    ∧ artifactPath outDir name = outDir ++ "/" ++ name :=
  ⟨List.getLast?_concat _, rfl, rfl⟩

/-- Claim C6: if sourceDir or outputDir does not exist when the run starts,
the run aborts before any compiler invocation (empty step trace) with a
distinct exit status per missing directory, and the filesystem is returned
unchanged (zero files written, directories checked but never created). -/
theorem C6_missing_dirs (skipBuild saveOk : Bool) (cfg : Config)
    (H : Algo → String → List Nat) (B : Artifact → Option String) (fs : FS) :
    (fs.dirs.contains cfg.SrcDir = false →
      work false false skipBuild saveOk (Except.ok cfg) H B fs =
        (fs, [], ErrorSrcDirNotFound))
    ∧ (fs.dirs.contains cfg.SrcDir = true → fs.dirs.contains cfg.OutDir = false →
      work false false skipBuild saveOk (Except.ok cfg) H B fs =
        (fs, [], ErrorOutDirNotFound))
    ∧ ErrorSrcDirNotFound ≠ ErrorOutDirNotFound :=
  ⟨work_srcDir_missing H B fs, work_outDir_missing H B fs, by decide⟩

/-- Witness for C6 at concrete inputs: a run whose srcDir is missing, and one
whose outDir is missing, abort with codes 4 and 5 leaving the filesystem as it
was. -/
theorem C6_witness :
    work false false false true (Except.ok exCfg) exH exB ⟨[], ["build"]⟩ =
      (⟨[], ["build"]⟩, [], ErrorSrcDirNotFound)
    ∧ work false false false true (Except.ok exCfg) exH exB ⟨[], ["."]⟩ =
      (⟨[], ["."]⟩, [], ErrorOutDirNotFound) :=
  ⟨(C6_missing_dirs false true exCfg exH exB ⟨[], ["build"]⟩).1 (by decide),
   (C6_missing_dirs false true exCfg exH exB ⟨[], ["."]⟩).2.1 (by decide) (by decide)⟩

/-- Counterexample for C7 as stated: a missing config file and an unparsable
config file do not map to distinct exit codes — `work` returns
`ErrorConfigFileNotFound` (2) for both `Config.Load` failure modes, and the
dedicated `ErrorReadConfig` code (3) is never used. -/
theorem C7_counterexample :
    work false false false true (Except.error LoadError.parseError) exH exB exFS0 =
        (exFS0, [], ErrorConfigFileNotFound)
    ∧ work false false false true (Except.error LoadError.fileNotFound) exH exB exFS0 =
        (exFS0, [], ErrorConfigFileNotFound)
    ∧ ErrorConfigFileNotFound ≠ ErrorReadConfig :=
  ⟨rfl, rfl, by decide⟩

/-- Claim C7 (amended): the fourteen error constants are pairwise-distinct
small integers 0–13, and `work` maps each failure category to a fixed code —
but both config-load failure modes (missing file and unparsable file) share
`ErrorConfigFileNotFound`, and the codes `ErrorReadConfig`,
`ErrorOpenArtifact` and `ErrorUnknown` are never returned: every exit status
lies in `reachableCodes`, which excludes them.  (An unreadable artifact
surfaces as the failing checksum or zip step's code instead.) -/
theorem C7_amended_exit_codes :
    ([NoError, ErrorUnknown, ErrorConfigFileNotFound, ErrorReadConfig, ErrorSrcDirNotFound,
      ErrorOutDirNotFound, ErrorInitConfig, ErrorOpenArtifact, ErrorGoBuild, ErrorMD5SumFile,
      ErrorSHA1SumFile, ErrorSHA256SumFile, ErrorSHA512SumFile, ErrorZipFile] : List Nat).Nodup
    ∧ (∀ (skipBuild saveOk : Bool) (e : LoadError) (H : Algo → String → List Nat)
        (B : Artifact → Option String) (fs : FS),
        work false false skipBuild saveOk (Except.error e) H B fs =
          (fs, [], ErrorConfigFileNotFound))
    ∧ (∀ (v i sb sv : Bool) (load : Except LoadError Config)
        (H : Algo → String → List Nat) (B : Artifact → Option String) (fs : FS),
        (work v i sb sv load H B fs).2.2 ∈ reachableCodes)
    ∧ ErrorReadConfig ∉ reachableCodes
    ∧ ErrorOpenArtifact ∉ reachableCodes
    ∧ ErrorUnknown ∉ reachableCodes :=
  ⟨by decide, fun skipBuild saveOk e H B fs => rfl, work_exit_mem, by decide, by decide,
   by decide⟩

/-- Claim C4: the driver processes artifacts strictly sequentially in declared
order, per artifact running Build then the checksum steps (md5, sha1, sha256,
sha512) then zip in that order; a step failure stops the run immediately — the
trace is a prefix of the per-artifact step order, later artifacts are never
attempted (the result does not depend on them), the exit status is the failing
step's code, and files written earlier are still present (never deleted). -/
theorem C4_fail_fast (H : Algo → String → List Nat) (B : Artifact → Option String)
    (cfg : Config) (a : Artifact) (rest : List Artifact) (fs fs₁ : FS)
    (tr : List Step) (c : Nat)
    (hfail : processArtifact H B cfg a fs = (fs₁, tr, some c)) :
    workLoop H B cfg (a :: rest) fs = (fs₁, tr, some c)
    ∧ tr ≠ []
    ∧ tr <+: cfg.fullTrace
    ∧ (∃ s : Step, tr.getLast? = some s ∧ c = stepErr s)
    ∧ (∀ q, fs₁.read q = none → fs.read q = none)
    ∧ (∀ saveOk : Bool, fs.dirs.contains cfg.SrcDir = true →
        fs.dirs.contains cfg.OutDir = true → cfg.Artifacts = a :: rest →
        work false false false saveOk (Except.ok cfg) H B fs = (fs₁, tr, c))
    ∧ (∀ (a' : Artifact) (fs' : FS) (tr' : List Step) (rest' : List Artifact),
        processArtifact H B cfg a' fs = (fs', tr', none) →
        workLoop H B cfg (a' :: rest') fs =
          ((workLoop H B cfg rest' fs').1, tr' ++ (workLoop H B cfg rest' fs').2.1,
            (workLoop H B cfg rest' fs').2.2)) := by
  obtain ⟨hne, hpre, hex⟩ := processArtifact_some_spec hfail
  refine ⟨workLoop_cons_fail rest hfail, hne, hpre, hex, ?_, ?_, ?_⟩
  · intro q hq
    have h3 : (processArtifact H B cfg a fs).1.read q = none := by
      rw [hfail]
      exact hq
    exact processArtifact_read_none h3
  · intro saveOk h1 h2 hart
    rw [work_run H B fs h1 h2, hart, workLoop_cons_fail rest hfail]
    rfl
  · intro a' fs' tr' rest' hok
    exact workLoop_cons_ok rest' hok

/-- Witness for C4 at concrete inputs: when the compiler fails on the first
artifact, the loop over two artifacts stops with only the build step attempted
and exit code `ErrorGoBuild`. -/
theorem C4_witness :
    workLoop exH exBfail exCfg [exArt, exArt2] exFS0 =
      (exFS0, [Step.build], some ErrorGoBuild) :=
  (C4_fail_fast exH exBfail exCfg exArt [exArt2] exFS0 exFS0 [Step.build]
    ErrorGoBuild rfl).1

/-- Claim C5: each of the five optional post-build steps executes if and only
if the corresponding config flag is set, independently of the others; with
only sha256 and zip enabled, a successful artifact pass produces exactly the
binary, the `.sha256.txt` record and the `.zip` archive, and writes nothing
else — in particular no md5/sha1/sha512 files. -/
theorem C5_flag_gating (H : Algo → String → List Nat) (B : Artifact → Option String)
    (cfg : Config) (a : Artifact) (fs fs' : FS) (tr : List Step)
    (hok : processArtifact H B cfg a fs = (fs', tr, none)) :
    tr = cfg.fullTrace
    ∧ (∀ al : Algo, al.step ∈ tr ↔ cfg.flag al = true)
    ∧ (Step.zip ∈ tr ↔ cfg.ZipFile = true)
    ∧ Step.build ∈ tr
    ∧ (cfg.MD5 = false → cfg.SHA1 = false → cfg.SHA512 = false → cfg.SHA256 = true →
        cfg.ZipFile = true → ∀ out, B a = some out →
        fs'.read (artifactPath cfg.OutDir a.Name) = some (FileData.bytes out)
        ∧ fs'.read (sumFileName cfg.OutDir a.Name Algo.sha256) =
            some (FileData.bytes (sumRecord (H Algo.sha256) a.Name out))
        ∧ fs'.read (zipFileName cfg.OutDir a.Name) =
            some (FileData.zipArchive
              [⟨baseName (artifactPath cfg.OutDir a.Name), zipDeflate, 0, out⟩])
        ∧ (∀ q, q ≠ artifactPath cfg.OutDir a.Name →
            q ≠ sumFileName cfg.OutDir a.Name Algo.sha256 →
            q ≠ zipFileName cfg.OutDir a.Name → fs'.read q = fs.read q)) := by
  have ht := processArtifact_none_trace hok
  refine ⟨ht, ?_, ?_, ?_, ?_⟩
  · rw [ht]
    exact fullTrace_mem_algo cfg
  · rw [ht]
    exact fullTrace_mem_zip cfg
  · rw [ht]
    exact fullTrace_mem_build cfg
  · intro hmd5 hsha1 hsha512 hsha256 hzip out hb
    have hbs : artifactPath cfg.OutDir a.Name ≠ sumFileName cfg.OutDir a.Name Algo.sha256 :=
      (sumFileName_ne_artifactPath cfg.OutDir a.Name Algo.sha256).symm
    have hbz : artifactPath cfg.OutDir a.Name ≠ zipFileName cfg.OutDir a.Name :=
      (zipFileName_ne_artifactPath cfg.OutDir a.Name).symm
    have hsz : sumFileName cfg.OutDir a.Name Algo.sha256 ≠ zipFileName cfg.OutDir a.Name :=
      sumFileName_ne_zipFileName cfg.OutDir a.Name Algo.sha256
    have hfmd5 : cfg.flag Algo.md5 = false := hmd5
    have hfsha1 : cfg.flag Algo.sha1 = false := hsha1
    have hfsha256 : cfg.flag Algo.sha256 = true := hsha256
    have hfsha512 : cfg.flag Algo.sha512 = false := hsha512
    have hfb : (fs.write (artifactPath cfg.OutDir a.Name) (FileData.bytes out)).read
        (artifactPath cfg.OutDir a.Name) = some (FileData.bytes out) :=
      FS.read_write_self _ _ _
    have hsum : a.CreateSumFile (H Algo.sha256) (artifactPath cfg.OutDir a.Name)
        (sumFileName cfg.OutDir a.Name Algo.sha256)
        (fs.write (artifactPath cfg.OutDir a.Name) (FileData.bytes out)) =
        ((fs.write (artifactPath cfg.OutDir a.Name) (FileData.bytes out)).write
          (sumFileName cfg.OutDir a.Name Algo.sha256)
          (FileData.bytes (sumRecord (H Algo.sha256) a.Name out)), none) :=
      CreateSumFile_bytes hfb
    have hrs : runSums H cfg a allAlgos
        (fs.write (artifactPath cfg.OutDir a.Name) (FileData.bytes out)) =
        ((fs.write (artifactPath cfg.OutDir a.Name) (FileData.bytes out)).write
          (sumFileName cfg.OutDir a.Name Algo.sha256)
          (FileData.bytes (sumRecord (H Algo.sha256) a.Name out)), [Step.sha256], none) := by
      simp only [allAlgos, runSums, hfmd5, hfsha1, hfsha256, hfsha512, Bool.false_eq_true,
        if_false, if_true, hsum]
      rfl
    have hzr : ((fs.write (artifactPath cfg.OutDir a.Name) (FileData.bytes out)).write
        (sumFileName cfg.OutDir a.Name Algo.sha256)
        (FileData.bytes (sumRecord (H Algo.sha256) a.Name out))).read
        (artifactPath cfg.OutDir a.Name) = some (FileData.bytes out) := by
      rw [FS.read_write_ne _ _ hbs]
      exact hfb
    have hcz : a.CreatZipFile (artifactPath cfg.OutDir a.Name) (zipFileName cfg.OutDir a.Name)
        ((fs.write (artifactPath cfg.OutDir a.Name) (FileData.bytes out)).write
          (sumFileName cfg.OutDir a.Name Algo.sha256)
          (FileData.bytes (sumRecord (H Algo.sha256) a.Name out))) =
        (((((fs.write (artifactPath cfg.OutDir a.Name) (FileData.bytes out)).write
              (sumFileName cfg.OutDir a.Name Algo.sha256)
              (FileData.bytes (sumRecord (H Algo.sha256) a.Name out))).write
            (zipFileName cfg.OutDir a.Name) (FileData.zipArchive [])).write
          (zipFileName cfg.OutDir a.Name)
          (FileData.zipArchive
            [⟨baseName (artifactPath cfg.OutDir a.Name), zipDeflate, 0, out⟩])), none) :=
      CreatZipFile_bytes hbz hzr
    have hcalc : processArtifact H B cfg a fs =
        (((((fs.write (artifactPath cfg.OutDir a.Name) (FileData.bytes out)).write
              (sumFileName cfg.OutDir a.Name Algo.sha256)
              (FileData.bytes (sumRecord (H Algo.sha256) a.Name out))).write
            (zipFileName cfg.OutDir a.Name) (FileData.zipArchive [])).write
          (zipFileName cfg.OutDir a.Name)
          (FileData.zipArchive
            [⟨baseName (artifactPath cfg.OutDir a.Name), zipDeflate, 0, out⟩])),
          (Step.build :: [Step.sha256]) ++ [Step.zip], none) := by
      simp only [processArtifact, hb, hrs, hzip, if_true, hcz]
    rw [hcalc] at hok
    simp only [Prod.mk.injEq] at hok
    obtain ⟨h1, -, -⟩ := hok
    subst h1
    refine ⟨?_, ?_, ?_, ?_⟩
    · rw [FS.read_write_ne _ _ hbz, FS.read_write_ne _ _ hbz, FS.read_write_ne _ _ hbs]
      exact FS.read_write_self _ _ _
    · rw [FS.read_write_ne _ _ hsz, FS.read_write_ne _ _ hsz]
      exact FS.read_write_self _ _ _
    · exact FS.read_write_self _ _ _
    · intro q hq1 hq2 hq3
      rw [FS.read_write_ne _ _ hq3, FS.read_write_ne _ _ hq3, FS.read_write_ne _ _ hq2,
        FS.read_write_ne _ _ hq1]

/-- Witness for C5 at concrete inputs: with only sha256 and zip enabled the
trace is exactly build, sha256, zip, and the md5 record file is untouched. -/
theorem C5_witness :
    (processArtifact exH exB exCfg exArt exFS0).2.1 = exCfg.fullTrace
    ∧ (processArtifact exH exB exCfg exArt exFS0).1.read
        (sumFileName "build" "app" Algo.md5) =
        exFS0.read (sumFileName "build" "app" Algo.md5) :=
  ⟨(C5_flag_gating exH exB exCfg exArt exFS0 _ _ rfl).1,
   ((C5_flag_gating exH exB exCfg exArt exFS0 _ _ rfl).2.2.2.2 rfl rfl rfl rfl rfl "AB"
      rfl).2.2.2 (sumFileName "build" "app" Algo.md5) (by decide) (by decide) (by decide)⟩

end GoCrossCompile
